import Mathlib

/-!
Verification development for the fiver repository.

The composer (src/src/router/compose.ts and src/unnamed/part_003, imported
by src/src/app.ts as ./router/layer) is embedded in a state-plus-exception
monad: a context is a state value, a handler receives its continuation, and
a thrown JavaScript error is an `Except.error`. Synchronous throws and
rejected promises are treated alike, as both compose variants await every
handler inside one try/catch.
-/

namespace Fiver

/-- Request context: an opaque user-visible part together with the
`routeIndex` field that compose.ts writes (`ctx[kCtxReq].routeIndex = i`). -/
structure Ctx (σ : Type) where
  user : σ
  routeIndex : Nat
deriving DecidableEq, Repr

/-- Values thrown at dispatch time: an application error from a handler, or
the dispatcher error built by `new Error('next() called multiple times')`. -/
inductive Err (E : Type) where
  | user : E → Err E
  | doubleNext : Err E
deriving DecidableEq, Repr

/-- Outcome of running one computation on a context: either normal
completion or a thrown error, plus the context state afterwards. -/
abbrev Res (σ E : Type) := Ctx σ → Except (Err E) Unit × Ctx σ

/-- A middleware handler: given its continuation (the `next` thunk), it
yields a computation on the context. -/
abbrev Hdl (σ E : Type) := Res σ E → Res σ E

/-- The `options` record of compose: optional onError and onNotFound. -/
structure Opts (σ E : Type) where
  onError : Option (Err E → Res σ E)
  onNotFound : Option (Res σ E)

/-- The no-handler branch of dispatch:
`if (options?.onNotFound) await options.onNotFound(ctx); return`. -/
def notFound (os : Opts σ E) : Res σ E := fun s =>
  match os.onNotFound with
  | some nf => nf s
  | none => (Except.ok (), s)

/-- The try/catch wrapper around one dispatch frame:
`try { await handler(...) } catch (err) { if (options?.onError) await
options.onError(err, ctx); else throw err }`. -/
def frame (os : Opts σ E) (body : Res σ E) : Res σ E := fun s =>
  match body s with
  | (Except.ok _, s₂) => (Except.ok (), s₂)
  | (Except.error e, s₂) =>
    match os.onError with
    | some g => g e s₂
    | none => (Except.error e, s₂)

/-- `dispatch` of src/src/router/compose.ts. The source declares
`const index = -1` and never reassigns it, so the guard
`if (i <= index) throw new Error('next() called multiple times')` compares
`i` against the constant -1. `middleware[i]` is truthy exactly when
`i < middleware.length` (entries are arrays), in which case the source
writes `ctx[kCtxReq].routeIndex = i` and runs `middleware[i][0][0]`;
otherwise the handler is `(i === middleware.length && next) || undefined`,
and a missing handler falls to the not-found branch. -/
def dispatchA (mw : List (Hdl σ E)) (os : Opts σ E) (nx? : Option (Hdl σ E))
    (i : Nat) : Res σ E := fun s =>
  if (i : Int) ≤ -1 then (Except.error Err.doubleNext, s)
  else if hlt : i < mw.length then
    frame os (mw.get ⟨i, hlt⟩ (dispatchA mw os nx? (i + 1)))
      {s with routeIndex := i}
  else if i = mw.length then
    match nx? with
    | some nxh => frame os (nxh (dispatchA mw os nx? (i + 1))) s
    | none => notFound os s
  else notFound os s
termination_by mw.length + 1 - i
decreasing_by
  · omega
  · omega

/-- `compose(middleware, options)` applied to `(ctx, next)`: the returned
function runs `dispatch(0)`. -/
def compose (mw : List (Hdl σ E)) (os : Opts σ E)
    (nx? : Option (Hdl σ E)) : Res σ E :=
  dispatchA mw os nx? 0

/-- `dispatch` of src/unnamed/part_003 (imported by src/src/app.ts as
./router/layer). Identical to `dispatchA` except that it never writes
`routeIndex`: the handler is chosen by
`current?.[0][0] || (i === middleware.length && next) || undefined`, which
selects the same handler as compose.ts when every slot holds a callable. -/
def dispatchB (mw : List (Hdl σ E)) (os : Opts σ E) (nx? : Option (Hdl σ E))
    (i : Nat) : Res σ E := fun s =>
  if (i : Int) ≤ -1 then (Except.error Err.doubleNext, s)
  else if hlt : i < mw.length then
    frame os (mw.get ⟨i, hlt⟩ (dispatchB mw os nx? (i + 1))) s
  else if i = mw.length then
    match nx? with
    | some nxh => frame os (nxh (dispatchB mw os nx? (i + 1))) s
    | none => notFound os s
  else notFound os s
termination_by mw.length + 1 - i
decreasing_by
  · omega
  · omega

/-- `compose` of src/unnamed/part_003. -/
def composeLayer (mw : List (Hdl σ E)) (os : Opts σ E)
    (nx? : Option (Hdl σ E)) : Res σ E :=
  dispatchB mw os nx? 0

/-! ### Fiber dispatch (src/src/ufiber.ts) -/

/-- The catch wrapping in Fiber dispatch: a synchronous throw is caught by
the try/catch, a rejected promise by `result.catch(...)`; both are handed
to the same error handler. -/
def catchWith (g : Err E → Res σ E) (body : Res σ E) : Res σ E := fun s =>
  match body s with
  | (Except.ok u, s₂) => (Except.ok u, s₂)
  | (Except.error e, s₂) => g e s₂

/-- The pieces of a Fiber instance that its private dispatch reads: the
router match function, the not-found handler and the error handler. -/
structure FiberCfg (σ E : Type) where
  matchFn : String → String → Option (List (Hdl σ E))
  notFoundH : Res σ E
  errorH : Err E → Res σ E

/-- The private dispatch of the Fiber class (src/src/ufiber.ts): it calls
`router.match(ctx.method === 'HEAD' ? 'GET' : ctx.method, ctx.path)`;
with no match it returns `this[kNotFound](ctx)`; a single-handler chain is
run directly with the not-found handler as its `next`; otherwise the chain
is composed with onError and onNotFound and run with no outer next.
Storing the match result on the context (`ctx[kMatch] = matchResult`) is
outside the modelled state and omitted. -/
def fiberDispatch (cfg : FiberCfg σ E) (method path : String) : Res σ E :=
  fun s =>
    match cfg.matchFn (if method == "HEAD" then "GET" else method) path with
    | none => cfg.notFoundH s
    | some [h] => catchWith cfg.errorH (h cfg.notFoundH) s
    | some chain =>
      catchWith cfg.errorH
        (compose chain ⟨some cfg.errorH, some cfg.notFoundH⟩ none) s

/-! ### Relations for comparing the two compose variants -/

/-- Two computations agree on everything except the routeIndex component:
run from states with equal user parts, they give equal outcomes and equal
user parts. -/
def KeepU (f g : Res σ E) : Prop :=
  ∀ s t : Ctx σ, s.user = t.user →
    (f s).1 = (g t).1 ∧ ((f s).2).user = ((g t).2).user

/-- A handler is insensitive to the routeIndex component: it maps
routeIndex-agreeing continuations to routeIndex-agreeing computations. -/
def HdlKeepU (h : Hdl σ E) : Prop :=
  ∀ k k', KeepU k k' → KeepU (h k) (h k')

/-- The configured error and not-found handlers are insensitive to the
routeIndex component. -/
def OptsKeepU (os : Opts σ E) : Prop :=
  (∀ g, os.onError = some g → ∀ e, KeepU (g e) (g e)) ∧
  (∀ nf, os.onNotFound = some nf → KeepU nf nf)

/-! ### Route matcher

Modelled from the spec: the matcher sources (SmartRouter, TrieRouter,
RegExpRouter of src/unnamed/part_004) are not under src/; only their caller
and the frozen-matcher message in src/src/consts.ts are. The structural
matcher and the route-table state machine below follow spec sections 4.1,
4.2, 4.4 and 6: segments are slash-delimited, a segment starting with a
colon is a named parameter and a bare star a trailing wildcard; trie nodes
hold literal children, at most one parameter child and at most one wildcard
child; matching prefers literal over parameter over wildcard with
backtracking; build freezes the table and a frozen table rejects add with
MatcherFrozenError. Optional segments and pattern validation are not needed
by any claim and are omitted. -/

/-- Modelled from the spec: a compiled pattern segment (spec section 4.1).
Optional-parameter segments are omitted, as no claim uses them. -/
inductive Seg where
  | literal : String → Seg
  | param : String → Seg
  | wildcard : Seg
deriving DecidableEq, Repr

/-- Splits a character list at slashes. -/
def splitAux : List Char → List Char → List String
  | [], acc => [String.mk acc.reverse]
  | c :: cs, acc =>
    if c = '/' then String.mk acc.reverse :: splitAux cs []
    else splitAux cs (c :: acc)

/-- Modelled from the spec: a path or pattern is cut into its nonempty
slash-delimited segments. -/
def splitPath (p : String) : List String :=
  (splitAux p.data []).filter (fun s => decide (s ≠ ""))

/-- Modelled from the spec: classify one pattern segment (spec section
4.1): a bare star is the trailing wildcard, a leading colon marks a named
parameter, anything else is a literal. -/
def segOfString (s : String) : Seg :=
  match s.data with
  | ['*'] => Seg.wildcard
  | ':' :: cs => Seg.param (String.mk cs)
  | _ => Seg.literal s

/-- Modelled from the spec: the pattern compiler (spec section 4.1). -/
def compilePattern (pattern : String) : List Seg :=
  (splitPath pattern).map segOfString

/-- Modelled from the spec: a trie node (spec section 3, Trie Node):
literal children keyed by segment text, at most one parameter child, at
most one wildcard child, and the routes registered at this node. -/
inductive Node (H : Type) where
  | mk : List (String × Node H) → Option (String × Node H) →
      Option (Node H) → List H → Node H

/-- A trie node with no children and no routes. -/
def emptyNode : Node H := Node.mk [] none none []

/-- Looks a segment text up among the literal children. -/
def lookupLit : List (String × Node H) → String → Option (Node H)
  | [], _ => none
  | (k, n) :: rest, s => if k = s then some n else lookupLit rest s

/-- Replaces or inserts the literal child for a segment text. -/
def upsertLit : List (String × Node H) → String → Node H →
    List (String × Node H)
  | [], k, nd => [(k, nd)]
  | (k', n') :: rest, k, nd =>
    if k' = k then (k, nd) :: rest else (k', n') :: upsertLit rest k nd

/-- Build-time route errors of the modelled matcher (spec section 7):
a conflicting dynamic segment, or a mutation after freeze
(MESSAGE_MATCHER_IS_ALREADY_BUILT in src/src/consts.ts). -/
inductive RErr where
  | ambiguous : RErr
  | matcherFrozen : RErr
deriving DecidableEq, Repr

/-- Modelled from the spec: trie insertion (spec section 4.2): a literal
segment creates or reuses a literal child; a parameter segment takes the
single parameter edge, failing when a different parameter name already
occupies it; a trailing wildcard registers the route at the wildcard
child. -/
def insertNode : List Seg → H → Node H → Except RErr (Node H)
  | [], h, Node.mk ls pc wc rs => Except.ok (Node.mk ls pc wc (rs ++ [h]))
  | Seg.literal t :: rest, h, Node.mk ls pc wc rs =>
    (insertNode rest h ((lookupLit ls t).getD emptyNode)).map
      fun c => Node.mk (upsertLit ls t c) pc wc rs
  | Seg.param nm :: rest, h, Node.mk ls pc wc rs =>
    match pc with
    | none =>
      (insertNode rest h emptyNode).map
        fun c => Node.mk ls (some (nm, c)) wc rs
    | some (nm', child) =>
      if nm' = nm then
        (insertNode rest h child).map
          fun c => Node.mk ls (some (nm, c)) wc rs
      else Except.error RErr.ambiguous
  | Seg.wildcard :: _, h, Node.mk ls pc wc rs =>
    match wc.getD emptyNode with
    | Node.mk wls wpc wwc wrs =>
      Except.ok (Node.mk ls pc (some (Node.mk wls wpc wwc (wrs ++ [h]))) rs)

/-- Modelled from the spec: trie matching (spec section 4.2): walk the path
segment by segment preferring a literal child over the parameter edge over
the wildcard edge, backtracking when a preferred branch dead-ends; the
winning leaf yields its route list and the parameter bindings collected on
the way; the wildcard binds the whole remaining path. -/
def matchNode : List String → Node H → Option (List H × List (String × String))
  | [], Node.mk _ _ _ rs =>
    match rs with
    | [] => none
    | r :: rs' => some (r :: rs', [])
  | seg :: rest, Node.mk ls pc wc _ =>
    match
      (match lookupLit ls seg with
       | some child => matchNode rest child
       | none => none) with
    | some r => some r
    | none =>
      match
        (match pc with
         | some (nm, child) =>
           (matchNode rest child).map fun pr => (pr.1, (nm, seg) :: pr.2)
         | none => none) with
      | some r => some r
      | none =>
        match wc with
        | some (Node.mk _ _ _ wrs) =>
          match wrs with
          | [] => none
          | r :: wrs' =>
            some (r :: wrs', [("*", String.intercalate "/" (seg :: rest))])
        | none => none

/-- Modelled from the spec: the route table owned by the strategy selector
(spec sections 3 and 4.4): per-method trie roots plus the one-way Building
to Frozen flag. -/
structure RTable (H : Type) where
  roots : List (String × Node H)
  built : Bool

/-- The empty, still mutable route table. -/
def RTable.empty : RTable H := ⟨[], false⟩

/-- The trie root for a method, an empty node when none exists yet. -/
def getRoot (t : RTable H) (m : String) : Node H :=
  (lookupLit t.roots m).getD emptyNode

/-- Modelled from the spec: `build()` freezes the table (spec section 4.4);
it is idempotent. -/
def buildTable (t : RTable H) : RTable H := {t with built := true}

/-- Modelled from the spec: `add(method, pattern, handler)` (spec sections
4.4 and 6). On a frozen table it fails with MatcherFrozenError and the
table is left as it was; otherwise the compiled pattern is inserted into
the trie for the method. Returns the outcome together with the table
afterwards. -/
def addRoute (m pat : String) (h : H) (t : RTable H) :
    Except RErr (RTable H) × RTable H :=
  if t.built then (Except.error RErr.matcherFrozen, t)
  else
    match insertNode (compilePattern pat) h (getRoot t m) with
    | Except.ok nd =>
      let t₂ : RTable H := {t with roots := upsertLit t.roots m nd}
      (Except.ok t₂, t₂)
    | Except.error e => (Except.error e, t)

/-- Modelled from the spec: `match(method, path)` (spec sections 4.4 and
6): the first match freezes the table (implicit build) and walks the trie
for the method. Returns the match result with the table afterwards. -/
def matchT (t : RTable H) (m p : String) :
    Option (List H × List (String × String)) × RTable H :=
  let t₂ := buildTable t
  (matchNode (splitPath p) (getRoot t₂ m), t₂)

/-- The table of the literal-versus-parameter scenario: routes
`GET /users/new` and `GET /users/:id`. -/
def usersTable (hNew hId : H) : RTable H :=
  (addRoute "GET" "/users/:id" hId
    (addRoute "GET" "/users/new" hNew RTable.empty).2).2

/-! ### HttpError and the errorHandler middleware
(src/src/errors.ts, src/src/middle/error-handler.ts) -/

/-- The body message of an HttpError: a string or a list of strings. -/
inductive Msg where
  | str : String → Msg
  | list : List String → Msg
deriving DecidableEq, Repr

/-- An HttpError instance as the errorHandler middleware observes it: the
status and name fields set by the constructor plus the options record.
The data payload is kept opaque as a string. -/
structure HttpErr where
  status : Nat
  name : String
  message : Msg
  data : Option String
  code : Option String
  cause : Bool
deriving DecidableEq, Repr

/-- The ErrorBody record of src/src/errors.ts. -/
structure ErrorBody where
  status : Nat
  error : String
  message : Msg
  data : Option String
  code : Option String
deriving DecidableEq, Repr

/-- `HttpError.getBody`:
`const {name: error, status} = this;
const {message, data = null, code = null} = this.options;
return {status, error, message, data, code};`. -/
def HttpErr.getBody (e : HttpErr) : ErrorBody :=
  ⟨e.status, e.name, e.message, e.data, e.code⟩

/-- A thrown value that is not an HttpError, with the message and stack
fields the errorHandler reads. -/
structure JsError where
  message : String
  stack : Option String
deriving DecidableEq, Repr

/-- A value reaching the errorHandler: the `HttpError.isError` instanceof
test splits it into HttpError instances and everything else. -/
inductive Thrown where
  | http : HttpErr → Thrown
  | js : JsError → Thrown
deriving DecidableEq, Repr

/-- The standardized body for unknown exceptions built by errorHandler. -/
structure UnknownBody where
  status : Nat
  error : String
  message : String
  stack : Option String
deriving DecidableEq, Repr

/-- What the errorHandler middleware sends: a JSON body of one of the two
shapes. -/
inductive RespBody where
  | errBody : ErrorBody → RespBody
  | unknownBody : UnknownBody → RespBody
deriving DecidableEq, Repr

/-- The response the errorHandler middleware writes through
`ctx.status(...).json(...)`. -/
structure CtxResp where
  status : Nat
  body : RespBody
deriving DecidableEq, Repr

/-- The errorHandler middleware of src/src/middle/error-handler.ts: a known
HttpError answers with its own status and `getBody()`; anything else gets
status 500 and the standardized InternalServerError body, whose message and
stack depend on isDev. Logging is a side effect outside the model. The
function body contains no throw, so the embedding is total. -/
def errorHandler (isDev : Bool) (err : Thrown) : CtxResp :=
  match err with
  | Thrown.http e => ⟨e.status, RespBody.errBody e.getBody⟩
  | Thrown.js e =>
    ⟨500, RespBody.unknownBody
      ⟨500, "InternalServerError",
        (if isDev then (if e.message = "" then "Unexpected error"
          else e.message) else "Something went wrong"),
        if isDev then e.stack else none⟩⟩

/-! ### FormData (src/unnamed/part_000) -/

/-- A JavaScript value as FormData stores it: an array or a non-array
value. The class stores caller values and also its own array wrapper for
multiple values, and tells them apart only with `Array.isArray`. -/
inductive JsVal (α : Type) where
  | prim : α → JsVal α
  | arr : List (JsVal α) → JsVal α

/-- The FormData container: the underlying Map in insertion order. -/
abbrev FormDataM (α : Type) := List (String × JsVal α)

/-- `super.get(name)`: the raw stored value. -/
def mapGet : FormDataM α → String → Option (JsVal α)
  | [], _ => none
  | (k', v) :: rest, k => if k' = k then some v else mapGet rest k

/-- `Map.set(key, value)`: replaces the binding in place or appends it. -/
def mapSet : FormDataM α → String → JsVal α → FormDataM α
  | [], k, v => [(k, v)]
  | (k', v') :: rest, k, v =>
    if k' = k then (k, v) :: rest else (k', v') :: mapSet rest k v

/-- The overridden `get`:
`const val = super.get(name); return Array.isArray(val) ? val[0] : val;`
(undefined when the key is absent or the stored array is empty). -/
def fdGet (fd : FormDataM α) (k : String) : Option (JsVal α) :=
  match mapGet fd k with
  | none => none
  | some (JsVal.arr xs) => xs.head?
  | some v => some v

/-- `getAll`:
`const v = super.get(key);
return Array.isArray(v) ? v : v !== undefined ? [v] : [];`. -/
def fdGetAll (fd : FormDataM α) (k : String) : List (JsVal α) :=
  match mapGet fd k with
  | none => []
  | some (JsVal.arr xs) => xs
  | some v => [v]

/-- `append`:
`const current = this.get(key);
if (current === undefined) this.set(key, value);
else if (Array.isArray(current)) current.push(value);
else this.set(key, [current, value]);`
Note that `current` comes from the overridden `get`, so it is the first
element of the stored array when one is stored; the in-place push then
mutates that aliased first element inside the stored array. -/
def fdAppend (fd : FormDataM α) (k : String) (v : JsVal α) : FormDataM α :=
  match fdGet fd k with
  | none => mapSet fd k v
  | some (JsVal.arr ys) =>
    match mapGet fd k with
    | some (JsVal.arr (_ :: tail)) =>
      mapSet fd k (JsVal.arr (JsVal.arr (ys ++ [v]) :: tail))
    | _ => fd
  | some cur => mapSet fd k (JsVal.arr [cur, v])

/-! ### Concrete fixtures used by closed theorems -/

/-- A handler that awaits its continuation twice:
`async (ctx, next) => { await next(); await next(); }` (the second await
runs only when the first resolved). -/
def doubleHdl : Hdl Nat Nat := fun k s =>
  match k s with
  | (Except.ok _, s₂) => k s₂
  | (Except.error e, s₂) => (Except.error e, s₂)

/-- A not-found handler that counts its invocations in the user state. -/
def countNF : Res Nat Nat := fun s =>
  (Except.ok (), {s with user := s.user + 1})

/-- An error handler that adds 100 to the user state, making any
invocation of it visible. -/
def bigErrH : Err Nat → Res Nat Nat := fun _ s =>
  (Except.ok (), {s with user := s.user + 100})

/-- A pass-through handler: `(ctx, next) => next()`. -/
def passHdl : Hdl σ E := fun k => k

/-- A handler that reads the routeIndex field of the context and throws
exactly when it equals 1. -/
def riSensitive : Hdl Nat Nat := fun _ s =>
  if s.routeIndex = 1 then (Except.error (Err.user 0), s)
  else (Except.ok (), s)

/-- A handler that throws the application error 5 without touching its
continuation or the state. -/
def throwHdl : Hdl Nat Nat := fun _ s => (Except.error (Err.user 5), s)

end Fiver

namespace Fiver

/-! Step lemmas unfolding one dispatch frame. -/

theorem dispatchA_lt {σ E : Type} {mw : List (Hdl σ E)} {i : Nat}
    (hlt : i < mw.length) (os : Opts σ E) (nx? : Option (Hdl σ E))
    (s : Ctx σ) :
    dispatchA mw os nx? i s =
      frame os (mw.get ⟨i, hlt⟩ (dispatchA mw os nx? (i + 1)))
        {s with routeIndex := i} := by
  rw [dispatchA.eq_def]
  rw [if_neg (by omega), dif_pos hlt]

theorem dispatchA_end {σ E : Type} {mw : List (Hdl σ E)} {i : Nat}
    (hi : i = mw.length) (os : Opts σ E) (nxh : Hdl σ E) (s : Ctx σ) :
    dispatchA mw os (some nxh) i s =
      frame os (nxh (dispatchA mw os (some nxh) (i + 1))) s := by
  rw [dispatchA.eq_def]
  rw [if_neg (by omega), dif_neg (by omega), if_pos hi]

theorem dispatchA_past {σ E : Type} {mw : List (Hdl σ E)} {i : Nat}
    {nx? : Option (Hdl σ E)}
    (h : mw.length < i ∨ (i = mw.length ∧ nx? = none)) (os : Opts σ E)
    (s : Ctx σ) :
    dispatchA mw os nx? i s = notFound os s := by
  rw [dispatchA.eq_def]
  rcases h with h | ⟨hi, hnx⟩
  · rw [if_neg (by omega), dif_neg (by omega), if_neg (by omega)]
  · subst hnx
    rw [if_neg (by omega), dif_neg (by omega), if_pos hi]

theorem dispatchB_lt {σ E : Type} {mw : List (Hdl σ E)} {i : Nat}
    (hlt : i < mw.length) (os : Opts σ E) (nx? : Option (Hdl σ E))
    (s : Ctx σ) :
    dispatchB mw os nx? i s =
      frame os (mw.get ⟨i, hlt⟩ (dispatchB mw os nx? (i + 1))) s := by
  rw [dispatchB.eq_def]
  rw [if_neg (by omega), dif_pos hlt]

theorem dispatchB_end {σ E : Type} {mw : List (Hdl σ E)} {i : Nat}
    (hi : i = mw.length) (os : Opts σ E) (nxh : Hdl σ E) (s : Ctx σ) :
    dispatchB mw os (some nxh) i s =
      frame os (nxh (dispatchB mw os (some nxh) (i + 1))) s := by
  rw [dispatchB.eq_def]
  rw [if_neg (by omega), dif_neg (by omega), if_pos hi]

theorem dispatchB_past {σ E : Type} {mw : List (Hdl σ E)} {i : Nat}
    {nx? : Option (Hdl σ E)}
    (h : mw.length < i ∨ (i = mw.length ∧ nx? = none)) (os : Opts σ E)
    (s : Ctx σ) :
    dispatchB mw os nx? i s = notFound os s := by
  rw [dispatchB.eq_def]
  rcases h with h | ⟨hi, hnx⟩
  · rw [if_neg (by omega), dif_neg (by omega), if_neg (by omega)]
  · subst hnx
    rw [if_neg (by omega), dif_neg (by omega), if_pos hi]

/-! Simulation between the two compose variants for routeIndex-insensitive
handlers. -/

theorem frame_keepU {σ E : Type} {os : Opts σ E} (hos : OptsKeepU os)
    {b b' : Res σ E} (hb : KeepU b b') : KeepU (frame os b) (frame os b') := by
  intro s t hst
  obtain ⟨h1, h2⟩ := hb s t hst
  unfold frame
  rcases hbs : b s with ⟨r, s₂⟩
  rcases hbt : b' t with ⟨r', t₂⟩
  rw [hbs, hbt] at h1 h2
  simp only at h1 h2
  subst h1
  cases r with
  | ok u => exact ⟨rfl, h2⟩
  | error e =>
    cases hoe : os.onError with
    | some g => exact hos.1 g hoe e s₂ t₂ h2
    | none => exact ⟨rfl, h2⟩

theorem notFound_keepU {σ E : Type} {os : Opts σ E} (hos : OptsKeepU os) :
    KeepU (notFound os) (notFound os) := by
  intro s t hst
  unfold notFound
  cases hnf : os.onNotFound with
  | some nf => exact hos.2 nf hnf s t hst
  | none => exact ⟨rfl, hst⟩

theorem dispatch_keepU {σ E : Type} {mw : List (Hdl σ E)} {os : Opts σ E}
    {nx? : Option (Hdl σ E)} (hmw : ∀ h ∈ mw, HdlKeepU h)
    (hnx : ∀ nxh, nx? = some nxh → HdlKeepU nxh) (hos : OptsKeepU os) :
    ∀ n i, mw.length + 1 - i ≤ n →
      KeepU (dispatchA mw os nx? i) (dispatchB mw os nx? i) := by
  intro n
  induction n with
  | zero =>
    intro i hi s t hst
    have hgt : mw.length < i := by omega
    rw [dispatchA_past (Or.inl hgt), dispatchB_past (Or.inl hgt)]
    exact notFound_keepU hos s t hst
  | succ n ih =>
    intro i hi s t hst
    by_cases hlt : i < mw.length
    · rw [dispatchA_lt hlt, dispatchB_lt hlt]
      have hk := ih (i + 1) (by omega)
      have hh : HdlKeepU (mw.get ⟨i, hlt⟩) := hmw _ (mw.get_mem i hlt)
      exact frame_keepU hos (hh _ _ hk) _ t (by simpa using hst)
    · by_cases heq : i = mw.length
      · cases hnxv : nx? with
        | some nxh =>
          rw [dispatchA_end heq, dispatchB_end heq]
          have hk : KeepU (dispatchA mw os nx? (i + 1))
              (dispatchB mw os nx? (i + 1)) := ih (i + 1) (by omega)
          rw [hnxv] at hk
          exact frame_keepU hos (hnx nxh hnxv _ _ hk) s t hst
        | none =>
          rw [dispatchA_past (Or.inr ⟨heq, rfl⟩),
            dispatchB_past (Or.inr ⟨heq, rfl⟩)]
          exact notFound_keepU hos s t hst
      · have hgt : mw.length < i := by omega
        rw [dispatchA_past (Or.inl hgt), dispatchB_past (Or.inl hgt)]
        exact notFound_keepU hos s t hst

/-! Claim theorems. -/

/-- C1: the claim says a second invocation of an already resolved
continuation raises DoubleNextError and surfaces it to the error handler.
The code cannot do that: `const index = -1` is never reassigned, so the
guard `i <= index` never fires. Run at the failing input — a one-handler
chain whose handler awaits `next()` twice, with a counting not-found
handler and an error handler that adds 100 — the dispatch completes
normally, the not-found handler runs twice (final user state 2) and the
error handler is never invoked: no DoubleNextError is ever surfaced. -/
theorem c1_double_next_run :
    compose [doubleHdl] ⟨some bigErrH, some countNF⟩ none ⟨0, 0⟩
      = (Except.ok (), ⟨2, 0⟩) := by
  have h1 : ∀ s : Ctx Nat,
      dispatchA [doubleHdl] ⟨some bigErrH, some countNF⟩ none 1 s
        = (Except.ok (), {s with user := s.user + 1}) := by
    intro s
    rw [dispatchA_past (Or.inr ⟨show 1 = [doubleHdl].length by simp, rfl⟩)]
    rfl
  show dispatchA [doubleHdl] ⟨some bigErrH, some countNF⟩ none 0 ⟨0, 0⟩ = _
  rw [dispatchA_lt (show 0 < [doubleHdl].length by simp)]
  simp only [List.get, frame, doubleHdl, h1]

/-- C2: in a three-handler chain whose first handler ignores its
continuation (its body is a fixed computation f), the composed dispatch is
exactly f run under the first frame's try/catch: the outcome does not
depend on the second or third handler, on the outer continuation, or on
the not-found handler, so none of them runs. -/
theorem c2_short_circuit {σ E : Type} (f : Res σ E) (h₂ h₃ : Hdl σ E)
    (os : Opts σ E) (nx? : Option (Hdl σ E)) (s : Ctx σ) :
    compose [fun _ => f, h₂, h₃] os nx? s
      = frame os f {s with routeIndex := 0} := by
  show dispatchA [fun _ => f, h₂, h₃] os nx? 0 s = _
  rw [dispatchA_lt (show 0 < [fun _ => f, h₂, h₃].length by simp)]
  rfl

/-- C3: an error produced by the handler selected at any dispatch frame —
the embedding does not distinguish synchronous throws from awaited
rejections — makes that frame answer with the configured onError handler
applied to the error, and with the error itself (rethrown to the caller of
the frame, hence of the top-level dispatch at frame 0) when no onError
handler is configured. -/
theorem c3_error_caught {σ E : Type} (mw : List (Hdl σ E)) (os : Opts σ E)
    (nx? : Option (Hdl σ E)) (i : Nat) (hlt : i < mw.length) (s s₂ : Ctx σ)
    (e : Err E)
    (hbody : mw.get ⟨i, hlt⟩ (dispatchA mw os nx? (i + 1))
        {s with routeIndex := i} = (Except.error e, s₂)) :
    dispatchA mw os nx? i s =
      match os.onError with
      | some g => g e s₂
      | none => (Except.error e, s₂) := by
  rw [dispatchA_lt hlt]
  unfold frame
  rw [hbody]

/-- Witness for C3: a one-handler chain whose handler throws error 5, with
no onError configured; the error reaches the caller of dispatch(0). -/
theorem c3_error_caught_witness :
    dispatchA [throwHdl] ⟨none, none⟩ none 0 ⟨0, 0⟩
      = (Except.error (Err.user 5), ⟨0, 0⟩) :=
  c3_error_caught [throwHdl] ⟨none, none⟩ none 0 (by simp) ⟨0, 0⟩ ⟨0, 0⟩
    (Err.user 5) rfl

/-- C4: a dispatch index beyond the chain (or at its end with no outer
continuation) runs the not-found branch: the configured not-found handler
when there is one, a plain normal return when there is none — never an
error made up by the dispatcher; and the Fiber dispatch, when the router
match comes back empty, returns its not-found handler's answer directly. -/
theorem c4_not_found {σ E : Type} (mw : List (Hdl σ E)) (os : Opts σ E)
    (nx? : Option (Hdl σ E)) (i : Nat) (s : Ctx σ) (cfg : FiberCfg σ E)
    (m p : String) (t : Ctx σ) :
    ((mw.length < i ∨ (i = mw.length ∧ nx? = none)) →
      dispatchA mw os nx? i s = notFound os s) ∧
    (∀ nf, os.onNotFound = some nf → notFound os s = nf s) ∧
    (os.onNotFound = none → notFound os s = (Except.ok (), s)) ∧
    (cfg.matchFn (if m == "HEAD" then "GET" else m) p = none →
      fiberDispatch cfg m p t = cfg.notFoundH t) := by
  refine ⟨fun h => dispatchA_past h os s, fun nf hnf => ?_, fun h => ?_,
    fun h => ?_⟩
  · unfold notFound
    rw [hnf]
  · unfold notFound
    rw [h]
  · simp only [fiberDispatch]
    rw [h]

/-- Witness for C4: an empty chain with a counting not-found handler, an
option record with no not-found handler, and a Fiber whose router matches
nothing. -/
theorem c4_not_found_witness :
    dispatchA ([] : List (Hdl Nat Nat)) ⟨none, some countNF⟩ none 0 ⟨0, 0⟩
      = notFound ⟨none, some countNF⟩ ⟨0, 0⟩ ∧
    notFound (⟨none, some countNF⟩ : Opts Nat Nat) ⟨0, 0⟩ = countNF ⟨0, 0⟩ ∧
    notFound (⟨none, none⟩ : Opts Nat Nat) ⟨1, 0⟩ = (Except.ok (), ⟨1, 0⟩) ∧
    fiberDispatch (⟨fun _ _ => none, countNF, bigErrH⟩ : FiberCfg Nat Nat)
      "GET" "/missing" ⟨0, 0⟩ = countNF ⟨0, 0⟩ := by
  refine ⟨(c4_not_found [] ⟨none, some countNF⟩ none 0 ⟨0, 0⟩
      ⟨fun _ _ => none, countNF, bigErrH⟩ "GET" "/missing" ⟨0, 0⟩).1
      (Or.inr ⟨rfl, rfl⟩),
    (c4_not_found [] ⟨none, some countNF⟩ none 0 ⟨0, 0⟩
      ⟨fun _ _ => none, countNF, bigErrH⟩ "GET" "/missing" ⟨0, 0⟩).2.1
      countNF rfl,
    (c4_not_found ([] : List (Hdl Nat Nat)) ⟨none, none⟩ none 0 ⟨1, 0⟩
      ⟨fun _ _ => none, countNF, bigErrH⟩ "GET" "/missing" ⟨1, 0⟩).2.2.1
      rfl,
    (c4_not_found ([] : List (Hdl Nat Nat)) ⟨none, some countNF⟩ none 0
      ⟨0, 0⟩ ⟨fun _ _ => none, countNF, bigErrH⟩ "GET" "/missing"
      ⟨0, 0⟩).2.2.2 rfl⟩

/-- C5 (spec-modelled matcher): once the table is built — explicitly via
build or implicitly by a first match — every further add fails with
MatcherFrozenError, the table is left exactly as it was, and matching any
method and path afterwards gives the same result as on the table just
before the attempted mutation. -/
theorem c5_frozen_after_build {H : Type} (t : RTable H) (m pat : String)
    (h : H) (m' p' q r : String) :
    (addRoute m pat h (buildTable t)).1 = Except.error RErr.matcherFrozen ∧
    (addRoute m pat h (buildTable t)).2 = buildTable t ∧
    (matchT (addRoute m pat h (buildTable t)).2 m' p').1
      = (matchT (buildTable t) m' p').1 ∧
    (matchT t q r).2.built = true ∧
    (addRoute m pat h (matchT t q r).2).1 = Except.error RErr.matcherFrozen :=
  ⟨rfl, rfl, rfl, rfl, rfl⟩

/-- C6 (spec-modelled matcher): with the literal route /users/new and the
parameter route /users/:id registered for GET, matching the literal path
returns the literal handler with no bindings, matching the segments
[users, seg] for any other segment returns the parameter handler with id
bound to that segment, and the concrete path /users/42 binds id to 42. -/
theorem c6_literal_over_param {H : Type} (hNew hId : H) (seg : String) :
    (matchT (usersTable hNew hId) "GET" "/users/new").1 = some ([hNew], []) ∧
    (seg ≠ "new" →
      matchNode ["users", seg]
          (getRoot (buildTable (usersTable hNew hId)) "GET")
        = some ([hId], [("id", seg)])) ∧
    (matchT (usersTable hNew hId) "GET" "/users/42").1
      = some ([hId], [("id", "42")]) := by
  refine ⟨rfl, fun hs => ?_, rfl⟩
  have hne : ¬ ("new" = seg) := fun hh => hs hh.symm
  show matchNode ["users", seg]
      (Node.mk [("users",
        Node.mk [("new", Node.mk [] none none [hNew])]
          (some ("id", Node.mk [] none none [hId])) none [])]
        none none [])
    = some ([hId], [("id", seg)])
  simp [matchNode, lookupLit, hne]

/-- Witness for C6 at the segment 42. -/
theorem c6_literal_over_param_witness :
    matchNode ["users", "42"]
        (getRoot (buildTable (usersTable (0 : Nat) 1)) "GET")
      = some ([1], [("id", "42")]) :=
  (c6_literal_over_param 0 1 "42").2.1 (by decide)

/-- C7: the Fiber dispatch consults the router with GET whenever the
request method is HEAD, and with the method itself otherwise: swapping the
match function for one that is pre-applied at the normalized method never
changes the dispatch outcome. -/
theorem c7_head_normalization {σ E : Type}
    (f : String → String → Option (List (Hdl σ E))) (nf : Res σ E)
    (eh : Err E → Res σ E) (m p : String) (s : Ctx σ) :
    (m = "HEAD" →
      fiberDispatch ⟨f, nf, eh⟩ m p s
        = fiberDispatch ⟨fun _ q => f "GET" q, nf, eh⟩ m p s) ∧
    (m ≠ "HEAD" →
      fiberDispatch ⟨f, nf, eh⟩ m p s
        = fiberDispatch ⟨fun _ q => f m q, nf, eh⟩ m p s) := by
  constructor
  · intro h
    subst h
    rfl
  · intro h
    have hb : (m == "HEAD") = false := beq_eq_false_iff_ne.mpr h
    simp [fiberDispatch, hb]

/-- Witness for C7 at the methods HEAD and GET. -/
theorem c7_head_normalization_witness :
    (fiberDispatch (⟨fun _ _ => none, countNF, bigErrH⟩ : FiberCfg Nat Nat)
        "HEAD" "/x" ⟨0, 0⟩
      = fiberDispatch ⟨fun _ q => (fun _ _ => none : String → String →
          Option (List (Hdl Nat Nat))) "GET" q, countNF, bigErrH⟩
        "HEAD" "/x" ⟨0, 0⟩) ∧
    (fiberDispatch (⟨fun _ _ => none, countNF, bigErrH⟩ : FiberCfg Nat Nat)
        "GET" "/x" ⟨0, 0⟩
      = fiberDispatch ⟨fun _ q => (fun _ _ => none : String → String →
          Option (List (Hdl Nat Nat))) "GET" q, countNF, bigErrH⟩
        "GET" "/x" ⟨0, 0⟩) :=
  ⟨(c7_head_normalization (fun _ _ => none) countNF bigErrH "HEAD" "/x"
      ⟨0, 0⟩).1 rfl,
    (c7_head_normalization (fun _ _ => none) countNF bigErrH "GET" "/x"
      ⟨0, 0⟩).2 (by decide)⟩

/-- C8 counterexample: the claim asserts the two compose implementations
give the same error outcomes for every middleware list of callable
handlers and every context. They do not: compose.ts records the dispatch
index on the context and part_003 never does, so a handler that reads the
routeIndex field observes the difference. With the chain [passHdl,
riSensitive] and no options, compose.ts throws (riSensitive sees
routeIndex 1) while the part_003 compose completes normally. -/
theorem c8_counterexample :
    compose [passHdl, riSensitive] ⟨none, none⟩ none ⟨0, 0⟩
      = (Except.error (Err.user 0), ⟨0, 1⟩) ∧
    composeLayer [passHdl, riSensitive] ⟨none, none⟩ none ⟨0, 0⟩
      = (Except.ok (), ⟨0, 0⟩) := by
  constructor
  · have h1 : dispatchA [passHdl, riSensitive] ⟨none, none⟩ none 1 ⟨0, 0⟩
        = (Except.error (Err.user 0), ⟨0, 1⟩) := by
      rw [dispatchA_lt (show 1 < [passHdl, riSensitive].length by simp)]
      rfl
    show dispatchA [passHdl, riSensitive] ⟨none, none⟩ none 0 ⟨0, 0⟩ = _
    rw [dispatchA_lt (show 0 < [passHdl, riSensitive].length by simp)]
    show frame ⟨none, none⟩
        (dispatchA [passHdl, riSensitive] ⟨none, none⟩ none 1) ⟨0, 0⟩ = _
    unfold frame
    rw [h1]
  · have h1 : dispatchB [passHdl, riSensitive] ⟨none, none⟩ none 1 ⟨0, 0⟩
        = (Except.ok (), ⟨0, 0⟩) := by
      rw [dispatchB_lt (show 1 < [passHdl, riSensitive].length by simp)]
      rfl
    show dispatchB [passHdl, riSensitive] ⟨none, none⟩ none 0 ⟨0, 0⟩ = _
    rw [dispatchB_lt (show 0 < [passHdl, riSensitive].length by simp)]
    show frame ⟨none, none⟩
        (dispatchB [passHdl, riSensitive] ⟨none, none⟩ none 1) ⟨0, 0⟩ = _
    unfold frame
    rw [h1]

/-- C8 amended: for every middleware list whose handlers are insensitive
to the routeIndex component of the context, every such outer continuation
and options record, and any two start contexts with the same user part,
the compose of compose.ts and the compose of part_003 select the same
handlers and produce the same completion, not-found and error outcome,
and the same user part of the final context; the two differ only in the
routeIndex bookkeeping that compose.ts performs. -/
theorem c8_equiv_amended {σ E : Type} (mw : List (Hdl σ E)) (os : Opts σ E)
    (nx? : Option (Hdl σ E)) (hmw : ∀ h ∈ mw, HdlKeepU h)
    (hnx : ∀ nxh, nx? = some nxh → HdlKeepU nxh) (hos : OptsKeepU os)
    (s t : Ctx σ) (hst : s.user = t.user) :
    (compose mw os nx? s).1 = (composeLayer mw os nx? t).1 ∧
    ((compose mw os nx? s).2).user = ((composeLayer mw os nx? t).2).user :=
  dispatch_keepU hmw hnx hos (mw.length + 1) 0 (by omega) s t hst

/-- Witness for C8 amended: a pass-through chain with a counting not-found
handler, started from contexts that differ in their routeIndex field. -/
theorem c8_equiv_amended_witness :
    (compose [passHdl] (⟨none, some countNF⟩ : Opts Nat Nat) none ⟨0, 0⟩).1
      = (composeLayer [passHdl] ⟨none, some countNF⟩ none ⟨0, 5⟩).1 ∧
    ((compose [passHdl] (⟨none, some countNF⟩ : Opts Nat Nat) none
        ⟨0, 0⟩).2).user
      = ((composeLayer [passHdl] ⟨none, some countNF⟩ none ⟨0, 5⟩).2).user := by
  refine c8_equiv_amended [passHdl] ⟨none, some countNF⟩ none ?_ ?_
    ⟨?_, ?_⟩ ⟨0, 0⟩ ⟨0, 5⟩ rfl
  · intro h hh
    have : h = passHdl := by simpa using hh
    subst this
    exact fun k k' hk => hk
  · intro nxh hh
    exact Option.noConfusion hh
  · intro g hg
    exact Option.noConfusion hg
  · intro nf hnf e t hst
    have : nf = countNF := by
      have := hnf
      simp only [Opts.onNotFound] at this
      exact (Option.some.injEq _ _ ▸ this).symm ▸ rfl
    subst this
    exact ⟨rfl, by simp [countNF, hst]⟩

/-- C9: the errorHandler middleware answers an HttpError instance with the
status of the error and the body built by getBody, and answers every other
thrown value with status 500 and the standardized body whose error field
is InternalServerError; the function is total, it never rethrows. -/
theorem c9_error_handler (d : Bool) (h : HttpErr) (j : JsError) :
    errorHandler d (Thrown.http h)
      = ⟨h.status, RespBody.errBody h.getBody⟩ ∧
    (errorHandler d (Thrown.js j)).status = 500 ∧
    ∃ u : UnknownBody, (errorHandler d (Thrown.js j)).body
        = RespBody.unknownBody u ∧
      u.error = "InternalServerError" ∧ u.status = 500 :=
  ⟨rfl, rfl, ⟨_, rfl, rfl, rfl⟩⟩

/-- C10: the claim says appending v1..vn under an absent key makes getAll
return [v1, ..., vn]. The code cannot do that for n at least 3: append
reads the current value with the overridden get, which yields the first
element of the stored array, so the third append replaces the stored array
[v1, v2] by [v1, v3] — exactly what this run shows. The append doc comment
(convert to an array and push) and the claim agree; the code drops v2. -/
theorem c10_append_run :
    fdGetAll (fdAppend (fdAppend (fdAppend ([] : FormDataM Nat) "k"
        (JsVal.prim 1)) "k" (JsVal.prim 2)) "k" (JsVal.prim 3)) "k"
      = [JsVal.prim 1, JsVal.prim 3] ∧
    fdGet (fdAppend (fdAppend (fdAppend ([] : FormDataM Nat) "k"
        (JsVal.prim 1)) "k" (JsVal.prim 2)) "k" (JsVal.prim 3)) "k"
      = some (JsVal.prim 1) :=
  ⟨rfl, rfl⟩

end Fiver


